import Mathlib

/-!
# GoTable C++ client interface (`api/c++/gotable.h`)

A shallow embedding of the declarations of `gotable.h`: the error-code
enumeration, the argument and reply records with their constructors, the
scan and dump continuation contexts, and the `Client` operations.

Conventions of the embedding:

* `uint8_t`, `uint16_t`, `uint32_t` are `Nat`, reduced modulo `2^8`, `2^16`,
  `2^32` where a constructor converts its argument; `int8_t`, `int64_t` and
  `int` are `Int`, with `toInt8` / `toInt64` for the conversions;
* `std::string` is a byte sequence, `List Nat`, of which only the length and
  the lexicographic order are used;
* a member that a constructor leaves uninitialised is an argument of the
  embedded constructor.

The header only declares the member functions of `Client`; their bodies are
not part of it.  The operations that are needed below are therefore modelled
from the specification, and each such definition says so in its doc comment.
-/

namespace gotable

/-! ## Basic types -/

/-- The C++ `std::string`: a sequence of bytes. -/
abbrev string := List Nat

/-- Conversion of an integer to `uint8_t`. -/
def toUint8 (x : Nat) : Nat := x % 2 ^ 8

/-- Conversion of an integer to `uint16_t`. -/
def toUint16 (x : Nat) : Nat := x % 2 ^ 16

/-- Conversion of an integer to `uint32_t`. -/
def toUint32 (x : Nat) : Nat := x % 2 ^ 32

/-- Conversion of an integer to `int8_t` (two's complement wrap-around). -/
def toInt8 (x : Int) : Int := (x + 2 ^ 7) % 2 ^ 8 - 2 ^ 7

/-- Conversion of an integer to `int64_t` (two's complement wrap-around). -/
def toInt64 (x : Int) : Int := (x + 2 ^ 63) % 2 ^ 64 - 2 ^ 63

/-! ## GoTable Error Code List (gotable.h, lines 29-49) -/

/-- The members of the anonymous error-code `enum`, in the order of the header. -/
inductive ErrCode where
  | EcNotExist
  | EcOk
  | EcCasNotMatch
  | EcTempFail
  | EcUnknownCmd
  | EcAuthFailed
  | EcNoPrivilege
  | EcWriteSlave
  | EcSlaveCas
  | EcReadFail
  | EcWriteFail
  | EcDecodeFail
  | EcInvDbId
  | EcInvRowKey
  | EcInvValue
  | EcInvPkgLen
  | EcInvScanNum
  | EcScanEnded
  deriving DecidableEq, Repr

namespace ErrCode

/-- The integer value the header gives to each enumerator. -/
def value : ErrCode → Int
  | EcNotExist    => 1
  | EcOk          => 0
  | EcCasNotMatch => -1
  | EcTempFail    => -2
  | EcUnknownCmd  => -10
  | EcAuthFailed  => -11
  | EcNoPrivilege => -12
  | EcWriteSlave  => -13
  | EcSlaveCas    => -14
  | EcReadFail    => -15
  | EcWriteFail   => -16
  | EcDecodeFail  => -17
  | EcInvDbId     => -18
  | EcInvRowKey   => -19
  | EcInvValue    => -20
  | EcInvPkgLen   => -21
  | EcInvScanNum  => -22
  | EcScanEnded   => -23

/-- Every enumerator, in the order of the header. -/
def all : List ErrCode :=
  [EcNotExist, EcOk, EcCasNotMatch, EcTempFail, EcUnknownCmd, EcAuthFailed,
   EcNoPrivilege, EcWriteSlave, EcSlaveCas, EcReadFail, EcWriteFail, EcDecodeFail,
   EcInvDbId, EcInvRowKey, EcInvValue, EcInvPkgLen, EcInvScanNum, EcScanEnded]

end ErrCode

/-! ## Argument and reply records (gotable.h, lines 51-181) -/

/-- The record `struct GetArgs`. -/
structure GetArgs where
  tableId : Nat
  rowKey : string
  colKey : string
  cas : Nat
  deriving DecidableEq, Repr

/-- The constructor `GetArgs() : tableId(0), cas(0) {}`. -/
def GetArgs.init : GetArgs :=
  { tableId := 0, rowKey := [], colKey := [], cas := 0 }

/-- The constructor `GetArgs(uint8_t tableId, rowKey, colKey, uint32_t cas)`. -/
def GetArgs.make (tableId : Nat) (rowKey colKey : string) (cas : Nat) : GetArgs :=
  { tableId := toUint8 tableId, rowKey := rowKey, colKey := colKey, cas := toUint32 cas }

/-- The record `struct GetReply`. -/
structure GetReply where
  errCode : Int
  tableId : Nat
  rowKey : string
  colKey : string
  value : string
  score : Int
  cas : Nat
  deriving DecidableEq, Repr

/-- The constructor `GetReply() : errCode(0), tableId(0), score(0), cas(0) {}`. -/
def GetReply.init : GetReply :=
  { errCode := toInt8 0, tableId := 0, rowKey := [], colKey := [], value := [],
    score := 0, cas := 0 }

/-- The record `struct SetArgs`. -/
structure SetArgs where
  tableId : Nat
  rowKey : string
  colKey : string
  value : string
  score : Int
  cas : Nat
  deriving DecidableEq, Repr

/-- The constructor `SetArgs() : tableId(0), score(0), cas(0) {}`. -/
def SetArgs.init : SetArgs :=
  { tableId := 0, rowKey := [], colKey := [], value := [], score := 0, cas := 0 }

/-- The constructor `SetArgs(tableId, rowKey, colKey, value, score, cas)`. -/
def SetArgs.make (tableId : Nat) (rowKey colKey value : string) (score : Int)
    (cas : Nat) : SetArgs :=
  { tableId := toUint8 tableId, rowKey := rowKey, colKey := colKey, value := value,
    score := toInt64 score, cas := toUint32 cas }

/-- The record `struct SetReply`. -/
structure SetReply where
  errCode : Int
  tableId : Nat
  rowKey : string
  colKey : string
  deriving DecidableEq, Repr

/-- The constructor `SetReply() : errCode(0), tableId(0) {}`. -/
def SetReply.init : SetReply :=
  { errCode := toInt8 0, tableId := 0, rowKey := [], colKey := [] }

/-- The record `struct IncrArgs`. -/
structure IncrArgs where
  tableId : Nat
  rowKey : string
  colKey : string
  score : Int
  cas : Nat
  deriving DecidableEq, Repr

/-- The constructor `IncrArgs() : tableId(0), score(0), cas(0) {}`. -/
def IncrArgs.init : IncrArgs :=
  { tableId := 0, rowKey := [], colKey := [], score := 0, cas := 0 }

/-- The constructor `IncrArgs(tableId, rowKey, colKey, score, cas)`. -/
def IncrArgs.make (tableId : Nat) (rowKey colKey : string) (score : Int)
    (cas : Nat) : IncrArgs :=
  { tableId := toUint8 tableId, rowKey := rowKey, colKey := colKey,
    score := toInt64 score, cas := toUint32 cas }

/-- The record `struct IncrReply`. -/
structure IncrReply where
  errCode : Int
  tableId : Nat
  rowKey : string
  colKey : string
  value : string
  score : Int
  deriving DecidableEq, Repr

/-- The constructor `IncrReply() : errCode(0), tableId(0), score(0) {}`. -/
def IncrReply.init : IncrReply :=
  { errCode := toInt8 0, tableId := 0, rowKey := [], colKey := [], value := [], score := 0 }

/-- The declaration `typedef GetArgs DelArgs;`. -/
abbrev DelArgs := GetArgs

/-- The declaration `typedef SetReply DelReply;`. -/
abbrev DelReply := SetReply

/-- The record `struct ScanKV`. -/
structure ScanKV where
  colKey : string
  value : string
  score : Int
  deriving DecidableEq, Repr

/-- The constructor `ScanKV() : score(0) {}`. -/
def ScanKV.init : ScanKV := { colKey := [], value := [], score := 0 }

/-- The private record `ScanReply::ScanContext`. -/
structure ScanContext where
  zop : Bool
  asc : Bool
  orderByScore : Bool
  num : Int
  deriving DecidableEq, Repr

/-- The record `struct ScanReply`, private context included. -/
structure ScanReply where
  tableId : Nat
  rowKey : string
  kvs : List ScanKV
  «end» : Bool
  ctx : ScanContext
  deriving DecidableEq, Repr

/-- The constructor `ScanReply() : tableId(0), kvs(), end(false) {}`.  It does not
initialise `ctx`, whose content is therefore an argument here. -/
def ScanReply.init (ctx : ScanContext) : ScanReply :=
  { tableId := 0, rowKey := [], kvs := [], «end» := false, ctx := ctx }

/-- The record `struct DumpKV`. -/
structure DumpKV where
  tableId : Nat
  colSpace : Nat
  rowKey : string
  colKey : string
  value : string
  score : Int
  deriving DecidableEq, Repr

/-- The constructor `DumpKV() : tableId(0), colSpace(0), score(0) {}`. -/
def DumpKV.init : DumpKV :=
  { tableId := 0, colSpace := 0, rowKey := [], colKey := [], value := [], score := 0 }

/-- The private record `DumpReply::DumpContext`. -/
structure DumpContext where
  oneTable : Bool
  tableId : Nat
  startUnitId : Nat
  endUnitId : Nat
  lastUnitId : Nat
  unitStart : Bool
  deriving DecidableEq, Repr

/-- The record `struct DumpReply`, private context included. -/
structure DumpReply where
  kvs : List DumpKV
  «end» : Bool
  ctx : DumpContext
  deriving DecidableEq, Repr

/-- The private state of `class Client` (gotable.h, lines 380-388); the scratch
buffer `buf` holds no information between calls and is left out. -/
structure Client where
  closed : Bool
  fd : Int
  dbId : Nat
  seq : Nat
  authAdmin : Bool
  setAuth : List Nat
  deriving DecidableEq, Repr

/-! ## Single operations: validation before any I/O

`Client::doOneOp` is declared at gotable.h, lines 358-361; its body is not in the
header. -/

/-- Modelled from the spec: the request of one single operation as the packet codec
receives it (operation kind, column-space flag, database id, sequence number and the
item payload); the header only names the parameters of `Client::doOneOp`. -/
structure OneOpReq where
  zop : Bool
  cmd : Nat
  dbId : Nat
  seq : Nat
  tableId : Nat
  rowKey : string
  colKey : string
  value : string
  score : Int
  cas : Nat
  deriving DecidableEq, Repr

/-- Modelled from the spec: the decoded reply of one single operation, `struct PkgOneOp`,
which the header declares without a body (status, echoed key and result fields). -/
structure PkgOneOp where
  errCode : Int
  tableId : Nat
  rowKey : string
  colKey : string
  value : string
  score : Int
  cas : Nat
  deriving DecidableEq, Repr

/-- What one call of `doOneOp` leaves behind: the returned code, the decoded reply when
there is one, the client state, and the requests written to the connection so far. -/
structure OneOpResult where
  code : Int
  reply : Option PkgOneOp
  cli : Client
  wire : List OneOpReq
  deriving DecidableEq, Repr

/-- Modelled from the spec: the checks the packet codec makes on a single operation
before touching the network, in the order the spec lists them: rowKey length in
[1, 255], value length in [0, 2^20], total encoded size below 2^21.  The body of
`Client::doOneOp` is missing from the header; `pkgLen` is the encoded size of the
request, whose wire layout the spec leaves open. -/
def validateOneOp (rowKey value : string) (pkgLen : Nat) : Option ErrCode :=
  if rowKey.length < 1 ∨ 255 < rowKey.length then some ErrCode.EcInvRowKey
  else if 1048576 < value.length then some ErrCode.EcInvValue
  else if 2097152 ≤ pkgLen then some ErrCode.EcInvPkgLen
  else none

/-- Modelled from the spec: `Client::doOneOp`, whose body is missing from the header.
A request that fails validation is answered at once with the validation error: nothing
is written to the connection and the sequence counter stays.  Otherwise the sequence
counter advances by one, the request is written, and the code of the reply that the
server `srv` gives is returned.  `encLen` is the encoded size of a request. -/
def doOneOp (encLen : OneOpReq → Nat) (srv : OneOpReq → PkgOneOp)
    (cli : Client) (wire : List OneOpReq)
    (zop : Bool) (cmd tableId : Nat) (rowKey colKey value : string)
    (score : Int) (cas : Nat) : OneOpResult :=
  let req : OneOpReq :=
    { zop := zop, cmd := cmd, dbId := cli.dbId, seq := cli.seq + 1, tableId := tableId,
      rowKey := rowKey, colKey := colKey, value := value, score := score, cas := cas }
  match validateOneOp rowKey value (encLen req) with
  | some ec => { code := ec.value, reply := none, cli := cli, wire := wire }
  | none =>
    let resp := srv req
    { code := resp.errCode, reply := some resp,
      cli := { cli with seq := cli.seq + 1 }, wire := wire ++ [req] }

/-! ## Dump sessions

`Client::dumpPivot`, `dumpDB`, `dumpTable`, `dumpMore` and `doDump` are declared at
gotable.h, lines 336-355 and 371-374; their bodies are not in the header. -/

/-- Modelled from the spec: the last record of a dump reply, the pivot after which the
next call resumes inside a unit (glossary, "Pivot"); the header has no member for it. -/
def DumpReply.lastRecordPivot (r : DumpReply) : Option DumpKV := r.kvs.getLast?

/-- Modelled from the spec: a dump request: the four values that a session fixes, the
unit in which to resume and the pivot record, if any.  The header declares `doDump`
without a body. -/
structure DumpReq where
  oneTable : Bool
  tableId : Nat
  startUnitId : Nat
  endUnitId : Nat
  resumeUnitId : Nat
  pivot : Option DumpKV
  deriving DecidableEq, Repr

/-- Modelled from the spec: the decoded dump response, `struct PkgDumpResp`, which the
header declares without a body: a status, a batch of records, the end flag, the last
unit visited and the unit-boundary flag. -/
structure PkgDumpResp where
  errCode : Int
  kvs : List DumpKV
  «end» : Bool
  lastUnitId : Nat
  unitStart : Bool
  deriving DecidableEq, Repr

/-- Modelled from the spec: `Client::doDump`, whose body is missing from the header.
The reply carries the records and end flag of the response; its context echoes the
four session values of the request and takes the last unit and the unit-boundary flag
from the response.  A negative status fails the call. -/
def doDump (srv : DumpReq → PkgDumpResp) (req : DumpReq) : Except Int DumpReply :=
  let resp := srv req
  if resp.errCode < 0 then Except.error resp.errCode
  else Except.ok
    { kvs := resp.kvs, «end» := resp.«end»,
      ctx := { oneTable := req.oneTable, tableId := req.tableId,
               startUnitId := req.startUnitId, endUnitId := req.endUnitId,
               lastUnitId := toUint16 resp.lastUnitId, unitStart := resp.unitStart } }

/-- Modelled from the spec: `Client::dumpPivot`, the start of a dump session from a
pivot record; the body is missing from the header. -/
def dumpPivot (srv : DumpReq → PkgDumpResp) (oneTable : Bool) (tableId colSpace : Nat)
    (rowKey colKey : string) (score : Int) (startUnitId endUnitId : Nat) :
    Except Int DumpReply :=
  doDump srv
    { oneTable := oneTable, tableId := tableId, startUnitId := startUnitId,
      endUnitId := endUnitId, resumeUnitId := startUnitId,
      pivot := some { tableId := tableId, colSpace := colSpace, rowKey := rowKey,
                      colKey := colKey, value := [], score := score } }

/-- Modelled from the spec: `Client::dumpDB`, all tables with the full unit range; the
body is missing from the header. -/
def dumpDB (srv : DumpReq → PkgDumpResp) : Except Int DumpReply :=
  doDump srv
    { oneTable := false, tableId := 0, startUnitId := 0, endUnitId := 65535,
      resumeUnitId := 0, pivot := none }

/-- Modelled from the spec: `Client::dumpTable`, single-table mode with the full unit
range; the body is missing from the header. -/
def dumpTable (srv : DumpReq → PkgDumpResp) (tableId : Nat) : Except Int DumpReply :=
  doDump srv
    { oneTable := true, tableId := tableId, startUnitId := 0, endUnitId := 65535,
      resumeUnitId := 0, pivot := none }

/-- Modelled from the spec: `Client::dumpMore`, whose body is missing from the header.
A session that has ended is answered with `EcScanEnded`.  Otherwise the four session
values of `last` are echoed; when the unit-boundary flag is set the call resumes at the
start of the unit after the last one visited, else inside that unit just after the last
record of `last`. -/
def dumpMore (srv : DumpReq → PkgDumpResp) (last : DumpReply) : Except Int DumpReply :=
  if last.«end» then Except.error ErrCode.EcScanEnded.value
  else if last.ctx.unitStart then
    doDump srv
      { oneTable := last.ctx.oneTable, tableId := last.ctx.tableId,
        startUnitId := last.ctx.startUnitId, endUnitId := last.ctx.endUnitId,
        resumeUnitId := last.ctx.lastUnitId + 1, pivot := none }
  else
    doDump srv
      { oneTable := last.ctx.oneTable, tableId := last.ctx.tableId,
        startUnitId := last.ctx.startUnitId, endUnitId := last.ctx.endUnitId,
        resumeUnitId := last.ctx.lastUnitId, pivot := last.lastRecordPivot }

/-! ## Scan sessions

`Client::scan`, `scanPivot`, `zScan`, `zScanPivot`, `scanMore` and `doScan` are declared
at gotable.h, lines 299-334 and 367-369; their bodies are not in the header, and the
server that answers them is not part of the repository. -/

/-- Modelled from the spec: the columns of one row in one column space.  A record is
addressed by (table, row key, column key, column space), so a row is a column map: the
column keys of its columns are pairwise distinct. -/
structure Row where
  kvs : List ScanKV
  distinct : (kvs.map ScanKV.colKey).Nodup

/-- Modelled from the spec: the rows the server holds, by column space (`true` is the
"Z" sorted score space), table id and row key. -/
abbrev Store := Bool → Nat → string → Row

/-- Modelled from the spec: a scan request, the parameters of `Client::doScan`. -/
structure ScanReq where
  zop : Bool
  tableId : Nat
  rowKey : string
  colKey : string
  score : Int
  start : Bool
  asc : Bool
  orderByScore : Bool
  num : Int
  deriving DecidableEq, Repr

/-- Modelled from the spec: the ascending order of the keys of two columns: by
(score, colKey) when ordering by score, else by colKey alone. -/
def keyLess (byScore : Bool) (c1 : string) (s1 : Int) (c2 : string) (s2 : Int) : Bool :=
  if byScore then decide (s1 < s2 ∨ (s1 = s2 ∧ c1 < c2)) else decide (c1 < c2)

/-- Modelled from the spec: the column with key (c1, s1) comes strictly before the column
with key (c2, s2) in the requested direction. -/
def scanBefore (asc byScore : Bool) (c1 : string) (s1 : Int) (c2 : string) (s2 : Int) :
    Bool :=
  if asc then keyLess byScore c1 s1 c2 s2 else keyLess byScore c2 s2 c1 s1

/-- Modelled from the spec: the columns of a row in the requested order. -/
def scanOrdered (asc byScore : Bool) (row : List ScanKV) : List ScanKV :=
  row.insertionSort
    (fun a b => scanBefore asc byScore b.colKey b.score a.colKey a.score = false)

/-- Modelled from the spec: the answer of the server to a scan request: the columns of
the row in the requested order, from the first one (`start`) or from just after the pivot
(colKey, score), at most `num` of them, and the end flag, which is set when no further
column exists in that direction.  The plain space is ordered by colKey; the scored space
by (score, colKey) when `orderByScore`, else by colKey. -/
def serverScan (st : Store) (req : ScanReq) : List ScanKV × Bool :=
  let byScore := req.zop && req.orderByScore
  let all := scanOrdered req.asc byScore (st req.zop req.tableId req.rowKey).kvs
  let cands :=
    if req.start then all
    else all.filter (fun kv => scanBefore req.asc byScore req.colKey req.score kv.colKey kv.score)
  (cands.take req.num.toNat, decide (cands.length ≤ req.num.toNat))

/-- Modelled from the spec: `Client::doScan`, whose body is missing from the header.  The
row key and the page size are checked before any exchange (`maxScanNum` is the server
maximum); the reply holds the page of the server, its end flag, and a context that
captures exactly the column space, direction, order mode and page size of the request. -/
def doScan (maxScanNum : Nat) (st : Store) (zop : Bool) (tableId : Nat)
    (rowKey colKey : string) (score : Int) (start asc orderByScore : Bool) (num : Int) :
    Except Int ScanReply :=
  if rowKey.length < 1 ∨ 255 < rowKey.length then Except.error ErrCode.EcInvRowKey.value
  else if num < 1 ∨ (maxScanNum : Int) < num then Except.error ErrCode.EcInvScanNum.value
  else
    let page := serverScan st
      { zop := zop, tableId := tableId, rowKey := rowKey, colKey := colKey, score := score,
        start := start, asc := asc, orderByScore := orderByScore, num := num }
    Except.ok
      { tableId := tableId, rowKey := rowKey, kvs := page.1, «end» := page.2,
        ctx := { zop := zop, asc := asc, orderByScore := orderByScore, num := num } }

/-- Modelled from the spec: `Client::scan`, from the MIN/MAX colKey of the default column
space; the body is missing from the header. -/
def scan (maxScanNum : Nat) (st : Store) (tableId : Nat) (rowKey : string) (asc : Bool)
    (num : Int) : Except Int ScanReply :=
  doScan maxScanNum st false tableId rowKey [] 0 true asc false num

/-- Modelled from the spec: `Client::scanPivot`, from a pivot record of the default column
space; the body is missing from the header. -/
def scanPivot (maxScanNum : Nat) (st : Store) (tableId : Nat) (rowKey colKey : string)
    (asc : Bool) (num : Int) : Except Int ScanReply :=
  doScan maxScanNum st false tableId rowKey colKey 0 false asc false num

/-- Modelled from the spec: `Client::zScan`, from the MIN/MAX colKey and score of the "Z"
sorted score space; the body is missing from the header. -/
def zScan (maxScanNum : Nat) (st : Store) (tableId : Nat) (rowKey : string)
    (asc orderByScore : Bool) (num : Int) : Except Int ScanReply :=
  doScan maxScanNum st true tableId rowKey [] 0 true asc orderByScore num

/-- Modelled from the spec: `Client::zScanPivot`, from a pivot record of the "Z" sorted
score space; the body is missing from the header. -/
def zScanPivot (maxScanNum : Nat) (st : Store) (tableId : Nat) (rowKey colKey : string)
    (score : Int) (asc orderByScore : Bool) (num : Int) : Except Int ScanReply :=
  doScan maxScanNum st true tableId rowKey colKey score false asc orderByScore num

/-- Modelled from the spec: `Client::scanMore`, whose body is missing from the header.  A
scan that has ended is answered with `EcScanEnded`; otherwise the next pivot is the last
record of `last` and an equivalent request is reissued with the values of its context. -/
def scanMore (maxScanNum : Nat) (st : Store) (last : ScanReply) : Except Int ScanReply :=
  if last.«end» then Except.error ErrCode.EcScanEnded.value
  else
    match last.kvs.getLast? with
    | none => Except.error ErrCode.EcScanEnded.value
    | some kv =>
      doScan maxScanNum st last.ctx.zop last.tableId last.rowKey kv.colKey kv.score false
        last.ctx.asc last.ctx.orderByScore last.ctx.num

/-- The replies of a scan session: the first reply `r`, then the reply of `scanMore` to
the unmodified previous one, until a reply has `end` set or a call fails.  `fuel` bounds
the number of `scanMore` calls. -/
def scanSession (maxScanNum : Nat) (st : Store) : Nat → ScanReply → List ScanReply
  | 0, r => [r]
  | fuel + 1, r =>
    if r.«end» then [r]
    else
      match scanMore maxScanNum st r with
      | Except.ok r2 => r :: scanSession maxScanNum st fuel r2
      | Except.error _ => [r]

/-- The records of a scan session, page after page. -/
def sessionRecords (rs : List ScanReply) : List ScanKV :=
  rs.flatMap ScanReply.kvs

/-- The reply of a scan whose remaining columns, in the requested order, are `rest`: the
first `num` of them, the end flag set when these are all of them, and the context of the
request. -/
def pageReply (zop : Bool) (tableId : Nat) (rowKey : string) (asc orderByScore : Bool)
    (num : Int) (rest : List ScanKV) : ScanReply :=
  { tableId := tableId, rowKey := rowKey, kvs := rest.take num.toNat,
    «end» := decide (rest.length ≤ num.toNat),
    ctx := { zop := zop, asc := asc, orderByScore := orderByScore, num := num } }

/-- A store used in the examples: row [117, 49] of table 1 has three columns in the
default column space and three columns, whose scores do not follow their column keys, in
the "Z" sorted score space; every other row is empty. -/
def exStore : Store := fun zop tableId rowKey =>
  if tableId = 1 ∧ rowKey = [117, 49] then
    if zop then
      { kvs := [{ colKey := [100], value := [4], score := 0 },
                { colKey := [97], value := [1], score := 1 },
                { colKey := [98], value := [2], score := -3 }],
        distinct := by decide }
    else
      { kvs := [{ colKey := [98], value := [2], score := 5 },
                { colKey := [99], value := [3], score := 1 },
                { colKey := [97], value := [1], score := 9 }],
        distinct := by decide }
  else { kvs := [], distinct := List.nodup_nil }

/-- A dump server used in the examples: it always answers with one record of table 3. -/
def exDumpServer : DumpReq → PkgDumpResp := fun req =>
  { errCode := 0,
    kvs := [{ tableId := 3, colSpace := 0, rowKey := [1], colKey := [2], value := [7],
              score := 0 }],
    «end» := false, lastUnitId := req.resumeUnitId, unitStart := true }

/-- A dump reply used in the examples. -/
def exDumpReply : DumpReply :=
  { kvs := [], «end» := false,
    ctx := { oneTable := true, tableId := 3, startUnitId := 10, endUnitId := 20,
             lastUnitId := 12, unitStart := true } }

/-! ## The error-code enumeration -/

/-- C1: the enumeration has exactly the eighteen members of the spec, each with the value
the spec lists (EcNotExist=1, EcOk=0, EcCasNotMatch=-1, EcTempFail=-2, EcUnknownCmd=-10,
..., EcScanEnded=-23), and no other member: every member occurs, once, in that list. -/
theorem errCode_enumeration_exact :
    ErrCode.all.map (fun c => (c, c.value)) =
      [(ErrCode.EcNotExist, 1), (ErrCode.EcOk, 0), (ErrCode.EcCasNotMatch, -1),
       (ErrCode.EcTempFail, -2), (ErrCode.EcUnknownCmd, -10), (ErrCode.EcAuthFailed, -11),
       (ErrCode.EcNoPrivilege, -12), (ErrCode.EcWriteSlave, -13), (ErrCode.EcSlaveCas, -14),
       (ErrCode.EcReadFail, -15), (ErrCode.EcWriteFail, -16), (ErrCode.EcDecodeFail, -17),
       (ErrCode.EcInvDbId, -18), (ErrCode.EcInvRowKey, -19), (ErrCode.EcInvValue, -20),
       (ErrCode.EcInvPkgLen, -21), (ErrCode.EcInvScanNum, -22), (ErrCode.EcScanEnded, -23)]
    ∧ (∀ c : ErrCode, c ∈ ErrCode.all)
    ∧ ErrCode.all.Nodup
    ∧ ErrCode.all.length = 18 := by
  refine ⟨rfl, ?_, by decide, rfl⟩
  intro c
  cases c <;> decide

/-- C2: the return-value convention agrees with the enumeration: a code is 0 exactly
when it is EcOk, 1 exactly when it is EcNotExist, positive exactly when it is EcNotExist,
and each code other than these two is strictly negative; sixteen codes are negative. -/
theorem errCode_return_convention (c : ErrCode) :
    (c.value = 0 ↔ c = ErrCode.EcOk)
    ∧ (c.value = 1 ↔ c = ErrCode.EcNotExist)
    ∧ (0 < c.value ↔ c = ErrCode.EcNotExist)
    ∧ (c = ErrCode.EcOk ∨ c = ErrCode.EcNotExist ∨ c.value < 0)
    ∧ (c.value < 0 ↔ (c ≠ ErrCode.EcOk ∧ c ≠ ErrCode.EcNotExist))
    ∧ (ErrCode.all.filter (fun d => decide (d.value < 0))).length = 16 := by
  cases c <;> decide

/-- C9: the eighteen codes are pairwise distinct and lie in [-128, 127]: converting a
code to the signed 8-bit `errCode` member of a reply and reading it back gives the same
code, and two codes give the same `errCode` only when they are the same code. -/
theorem errCode_fits_int8 (c d : ErrCode) :
    (-128 ≤ c.value ∧ c.value ≤ 127)
    ∧ toInt8 c.value = c.value
    ∧ ({ GetReply.init with errCode := toInt8 c.value }).errCode = c.value
    ∧ ({ SetReply.init with errCode := toInt8 c.value }).errCode = c.value
    ∧ ({ IncrReply.init with errCode := toInt8 c.value }).errCode = c.value
    ∧ (toInt8 c.value = toInt8 d.value ↔ c = d)
    ∧ (c.value = d.value ↔ c = d) := by
  cases c <;> cases d <;> decide

/-! ## The records and their constructors -/

/-- C10: every default-constructed argument or reply record is zeroed: GetArgs(),
SetArgs(), IncrArgs() have tableId 0, empty strings, score 0 and cas 0; GetReply(),
SetReply(), IncrReply() have errCode EcOk, tableId 0, empty strings, score 0 and cas 0
(each for the members the record has); ScanReply() has tableId 0, no records and its
flag end = false, whatever its uninitialised context holds. -/
theorem default_constructed_zeroed (ctx : ScanContext) :
    GetArgs.init = { tableId := 0, rowKey := [], colKey := [], cas := 0 }
    ∧ SetArgs.init =
        { tableId := 0, rowKey := [], colKey := [], value := [], score := 0, cas := 0 }
    ∧ IncrArgs.init = { tableId := 0, rowKey := [], colKey := [], score := 0, cas := 0 }
    ∧ GetReply.init =
        { errCode := ErrCode.EcOk.value, tableId := 0, rowKey := [], colKey := [],
          value := [], score := 0, cas := 0 }
    ∧ SetReply.init =
        { errCode := ErrCode.EcOk.value, tableId := 0, rowKey := [], colKey := [] }
    ∧ IncrReply.init =
        { errCode := ErrCode.EcOk.value, tableId := 0, rowKey := [], colKey := [],
          value := [], score := 0 }
    ∧ (ScanReply.init ctx).tableId = 0
    ∧ (ScanReply.init ctx).kvs = []
    ∧ (ScanReply.init ctx).«end» = false := by
  refine ⟨rfl, rfl, rfl, ?_, ?_, ?_, rfl, rfl, rfl⟩ <;> decide

/-- C8: Del reuses the Get and Set shapes: DelArgs is the type GetArgs and DelReply is the
type SetReply, so a GetArgs value is a DelArgs value with the same tableId, rowKey, colKey
and cas, and a SetReply value is a DelReply value with the same errCode, tableId, rowKey
and colKey. -/
theorem del_reuses_get_and_set_shapes :
    DelArgs = GetArgs
    ∧ DelReply = SetReply
    ∧ (∀ a : GetArgs, ∃ d : DelArgs,
        d.tableId = a.tableId ∧ d.rowKey = a.rowKey ∧ d.colKey = a.colKey ∧ d.cas = a.cas)
    ∧ (∀ r : SetReply, ∃ d : DelReply,
        d.errCode = r.errCode ∧ d.tableId = r.tableId ∧ d.rowKey = r.rowKey
          ∧ d.colKey = r.colKey) :=
  ⟨rfl, rfl, fun a => ⟨a, rfl, rfl, rfl, rfl⟩, fun r => ⟨r, rfl, rfl, rfl, rfl⟩⟩

/-- C6, as stated, fails: the constructors of GetArgs, SetArgs and IncrArgs store the
table id they are given, and given 255 they build a record with tableId = 255. -/
theorem args_tableId_255_constructed :
    ¬ (∀ (t : Nat) (r c v : string) (s : Int) (cas : Nat),
        (GetArgs.make t r c cas).tableId ≠ 255
        ∧ (SetArgs.make t r c v s cas).tableId ≠ 255
        ∧ (IncrArgs.make t r c s cas).tableId ≠ 255) := by
  intro h
  exact (h 255 [1] [] [] 0 0).1 (by decide)

/-- C6, amended: every GetArgs, SetArgs or IncrArgs value that a constructor builds has
a tableId in 0..255: the default constructors give 0, and the other constructors store
the 8-bit table id of the caller unchanged, 255 included. -/
theorem args_tableId_is_uint8 (t : Nat) (r c v : string) (s : Int) (cas : Nat) :
    GetArgs.init.tableId = 0 ∧ SetArgs.init.tableId = 0 ∧ IncrArgs.init.tableId = 0
    ∧ (GetArgs.make t r c cas).tableId = t % 256
    ∧ (SetArgs.make t r c v s cas).tableId = t % 256
    ∧ (IncrArgs.make t r c s cas).tableId = t % 256
    ∧ (GetArgs.make t r c cas).tableId ≤ 255
    ∧ (SetArgs.make t r c v s cas).tableId ≤ 255
    ∧ (IncrArgs.make t r c s cas).tableId ≤ 255
    ∧ (GetArgs.make 255 r c cas).tableId = 255
    ∧ (SetArgs.make 255 r c v s cas).tableId = 255
    ∧ (IncrArgs.make 255 r c s cas).tableId = 255 := by
  have h : t % 256 ≤ 255 := by omega
  simp only [GetArgs.init, SetArgs.init, IncrArgs.init, GetArgs.make, SetArgs.make,
    IncrArgs.make, toUint8]
  norm_num
  exact h

/-! ## Single operations -/

/-- The validation of a single operation answers with the row-key error exactly when the
length of the row key is outside [1, 255]. -/
theorem validateOneOp_rowKey_iff (rowKey value : string) (pkgLen : Nat) :
    validateOneOp rowKey value pkgLen = some ErrCode.EcInvRowKey
      ↔ (rowKey.length < 1 ∨ 255 < rowKey.length) := by
  unfold validateOneOp
  by_cases h1 : rowKey.length < 1 ∨ 255 < rowKey.length
  · rw [if_pos h1]
    exact ⟨fun _ => h1, fun _ => rfl⟩
  · rw [if_neg h1]
    constructor
    · intro h
      split_ifs at h <;> simp at h
    · intro h
      exact absurd h h1

/-- A single operation that fails validation returns the validation error and leaves
the connection and the client as they were. -/
theorem doOneOp_of_invalid (encLen : OneOpReq → Nat) (srv : OneOpReq → PkgOneOp)
    (cli : Client) (wire : List OneOpReq) (zop : Bool) (cmd tableId : Nat)
    (rowKey colKey value : string) (score : Int) (cas : Nat) (ec : ErrCode)
    (hv : validateOneOp rowKey value
      (encLen { zop := zop, cmd := cmd, dbId := cli.dbId, seq := cli.seq + 1,
                tableId := tableId, rowKey := rowKey, colKey := colKey, value := value,
                score := score, cas := cas }) = some ec) :
    doOneOp encLen srv cli wire zop cmd tableId rowKey colKey value score cas
      = { code := ec.value, reply := none, cli := cli, wire := wire } := by
  simp only [doOneOp, hv]

/-- A single operation that passes validation advances the sequence counter, writes the
request and returns the code of the reply. -/
theorem doOneOp_of_valid (encLen : OneOpReq → Nat) (srv : OneOpReq → PkgOneOp)
    (cli : Client) (wire : List OneOpReq) (zop : Bool) (cmd tableId : Nat)
    (rowKey colKey value : string) (score : Int) (cas : Nat)
    (hv : validateOneOp rowKey value
      (encLen { zop := zop, cmd := cmd, dbId := cli.dbId, seq := cli.seq + 1,
                tableId := tableId, rowKey := rowKey, colKey := colKey, value := value,
                score := score, cas := cas }) = none) :
    (doOneOp encLen srv cli wire zop cmd tableId rowKey colKey value score cas).wire
      = wire ++ [{ zop := zop, cmd := cmd, dbId := cli.dbId, seq := cli.seq + 1,
                   tableId := tableId, rowKey := rowKey, colKey := colKey,
                   value := value, score := score, cas := cas }]
    ∧ (doOneOp encLen srv cli wire zop cmd tableId rowKey colKey value score cas).cli.seq
      = cli.seq + 1 := by
  simp only [doOneOp, hv, and_self]

/-- A single operation whose row key, value and encoded size are within their bounds
passes validation. -/
theorem validateOneOp_accepts (rowKey value : string) (pkgLen : Nat)
    (hkey : 1 ≤ rowKey.length ∧ rowKey.length ≤ 255) (hval : value.length ≤ 1048576)
    (hpkg : pkgLen < 2097152) : validateOneOp rowKey value pkgLen = none := by
  have h1 : ¬ (rowKey.length < 1 ∨ 255 < rowKey.length) := by omega
  have h2 : ¬ (1048576 < value.length) := by omega
  have h3 : ¬ (2097152 ≤ pkgLen) := by omega
  simp only [validateOneOp, h1, h2, h3, if_false]

/-- A rejected single operation is one that returns the row-key validation error and has
performed no I/O: nothing was written, the client state is as before, no reply exists. -/
theorem doOneOp_rejected_iff (encLen : OneOpReq → Nat) (srv : OneOpReq → PkgOneOp)
    (cli : Client) (wire : List OneOpReq) (zop : Bool) (cmd tableId : Nat)
    (rowKey colKey value : string) (score : Int) (cas : Nat) :
    ((doOneOp encLen srv cli wire zop cmd tableId rowKey colKey value score cas).code
        = ErrCode.EcInvRowKey.value
      ∧ (doOneOp encLen srv cli wire zop cmd tableId rowKey colKey value score cas).wire
        = wire
      ∧ (doOneOp encLen srv cli wire zop cmd tableId rowKey colKey value score cas).cli
        = cli
      ∧ (doOneOp encLen srv cli wire zop cmd tableId rowKey colKey value score cas).reply
        = none)
      ↔ (rowKey.length < 1 ∨ 255 < rowKey.length) := by
  rw [← validateOneOp_rowKey_iff rowKey value
    (encLen { zop := zop, cmd := cmd, dbId := cli.dbId, seq := cli.seq + 1,
              tableId := tableId, rowKey := rowKey, colKey := colKey, value := value,
              score := score, cas := cas })]
  cases hv : validateOneOp rowKey value
    (encLen { zop := zop, cmd := cmd, dbId := cli.dbId, seq := cli.seq + 1,
              tableId := tableId, rowKey := rowKey, colKey := colKey, value := value,
              score := score, cas := cas }) with
  | some ec =>
    rw [doOneOp_of_invalid encLen srv cli wire zop cmd tableId rowKey colKey value score
      cas ec hv]
    simp only [true_and, and_true, Option.some.injEq]
    cases ec <;> decide
  | none =>
    have hw := (doOneOp_of_valid encLen srv cli wire zop cmd tableId rowKey colKey value
      score cas hv).1
    simp only [reduceCtorEq, iff_false, not_and]
    intro _ h
    rw [hw] at h
    simp at h

/-- C4: for every single operation, the client rejects the request with EcInvRowKey
before any I/O (nothing written, client state unchanged, no reply) if and only if the
rowKey length is outside [1, 255]; row keys of length 0 and 256 are rejected, row keys
of length 1 and 255 are not. -/
theorem doOneOp_rowKey_validation (encLen : OneOpReq → Nat) (srv : OneOpReq → PkgOneOp)
    (cli : Client) (wire : List OneOpReq) (zop : Bool) (cmd tableId : Nat)
    (rowKey colKey value : string) (score : Int) (cas : Nat) :
    (((doOneOp encLen srv cli wire zop cmd tableId rowKey colKey value score cas).code
        = ErrCode.EcInvRowKey.value
      ∧ (doOneOp encLen srv cli wire zop cmd tableId rowKey colKey value score cas).wire
        = wire
      ∧ (doOneOp encLen srv cli wire zop cmd tableId rowKey colKey value score cas).cli
        = cli
      ∧ (doOneOp encLen srv cli wire zop cmd tableId rowKey colKey value score cas).reply
        = none)
      ↔ ¬ (1 ≤ rowKey.length ∧ rowKey.length ≤ 255))
    ∧ validateOneOp (List.replicate 0 0) value
        (encLen { zop := zop, cmd := cmd, dbId := cli.dbId, seq := cli.seq + 1,
                  tableId := tableId, rowKey := List.replicate 0 0, colKey := colKey,
                  value := value, score := score, cas := cas })
        = some ErrCode.EcInvRowKey
    ∧ validateOneOp (List.replicate 256 0) value
        (encLen { zop := zop, cmd := cmd, dbId := cli.dbId, seq := cli.seq + 1,
                  tableId := tableId, rowKey := List.replicate 256 0, colKey := colKey,
                  value := value, score := score, cas := cas })
        = some ErrCode.EcInvRowKey
    ∧ validateOneOp (List.replicate 1 0) value
        (encLen { zop := zop, cmd := cmd, dbId := cli.dbId, seq := cli.seq + 1,
                  tableId := tableId, rowKey := List.replicate 1 0, colKey := colKey,
                  value := value, score := score, cas := cas })
        ≠ some ErrCode.EcInvRowKey
    ∧ validateOneOp (List.replicate 255 0) value
        (encLen { zop := zop, cmd := cmd, dbId := cli.dbId, seq := cli.seq + 1,
                  tableId := tableId, rowKey := List.replicate 255 0, colKey := colKey,
                  value := value, score := score, cas := cas })
        ≠ some ErrCode.EcInvRowKey := by
  refine ⟨?_, ?_, ?_, ?_, ?_⟩
  · rw [doOneOp_rejected_iff]
    omega
  · rw [validateOneOp_rowKey_iff, List.length_replicate]; omega
  · rw [validateOneOp_rowKey_iff, List.length_replicate]; omega
  · rw [Ne, validateOneOp_rowKey_iff, List.length_replicate]; omega
  · rw [Ne, validateOneOp_rowKey_iff, List.length_replicate]; omega

/-! ## Dump sessions -/

/-- A dump session that has not ended gets a reply from `dumpMore` whenever the server
answers with a status that is not negative. -/
theorem dumpMore_produces_reply (srv : DumpReq → PkgDumpResp) (last : DumpReply)
    (hopen : last.«end» = false) (hsrv : ∀ req, 0 ≤ (srv req).errCode) :
    ∃ reply, dumpMore srv last = Except.ok reply := by
  unfold dumpMore
  rw [hopen]
  simp only [Bool.false_eq_true, if_false]
  split_ifs with hu
  · unfold doDump
    simp only [not_lt.mpr (hsrv _), if_false]
    exact ⟨_, rfl⟩
  · unfold doDump
    simp only [not_lt.mpr (hsrv _), if_false]
    exact ⟨_, rfl⟩

/-- The context of a reply of `doDump` echoes the four session values of the request. -/
theorem doDump_echoes_session (srv : DumpReq → PkgDumpResp) (req : DumpReq)
    (reply : DumpReply) (h : doDump srv req = Except.ok reply) :
    reply.ctx.oneTable = req.oneTable
    ∧ reply.ctx.tableId = req.tableId
    ∧ reply.ctx.startUnitId = req.startUnitId
    ∧ reply.ctx.endUnitId = req.endUnitId := by
  simp only [doDump] at h
  split_ifs at h
  cases h
  exact ⟨rfl, rfl, rfl, rfl⟩

/-- C5: the reply that dumpMore(last, reply) produces has the four session fields of the
continuation context (oneTable, tableId, startUnitId, endUnitId) equal to those of
`last`; only lastUnitId and unitStart come from the new response. -/
theorem dumpMore_keeps_session_fields (srv : DumpReq → PkgDumpResp)
    (last reply : DumpReply) (h : dumpMore srv last = Except.ok reply) :
    reply.ctx.oneTable = last.ctx.oneTable
    ∧ reply.ctx.tableId = last.ctx.tableId
    ∧ reply.ctx.startUnitId = last.ctx.startUnitId
    ∧ reply.ctx.endUnitId = last.ctx.endUnitId := by
  unfold dumpMore at h
  split_ifs at h with h1 h2
  · exact doDump_echoes_session srv _ reply h
  · exact doDump_echoes_session srv _ reply h

/-- C5 at a concrete session: the continuation of a single-table dump of table 3 over
the units 10..20 keeps these four values while the last unit moves from 12 to 13. -/
theorem dumpMore_keeps_session_fields_witness :
    dumpMore exDumpServer exDumpReply =
      Except.ok
        { kvs := [{ tableId := 3, colSpace := 0, rowKey := [1], colKey := [2],
                    value := [7], score := 0 }],
          «end» := false,
          ctx := { oneTable := true, tableId := 3, startUnitId := 10, endUnitId := 20,
                   lastUnitId := 13, unitStart := true } }
    ∧ (true = exDumpReply.ctx.oneTable ∧ 3 = exDumpReply.ctx.tableId
        ∧ 10 = exDumpReply.ctx.startUnitId ∧ 20 = exDumpReply.ctx.endUnitId) :=
  ⟨rfl, dumpMore_keeps_session_fields exDumpServer exDumpReply _ rfl⟩

/-- C7, as stated, fails: the last-record pivot is no function of the context of a
DumpReply: two replies with the same context have different pivots. -/
theorem dump_pivot_not_in_context :
    ¬ ∃ pivotOf : DumpContext → Option DumpKV,
        ∀ r : DumpReply, pivotOf r.ctx = r.lastRecordPivot := by
  rintro ⟨f, hf⟩
  have h1 := hf { kvs := [], «end» := false, ctx := exDumpReply.ctx }
  have h2 := hf { kvs := [DumpKV.init], «end» := false, ctx := exDumpReply.ctx }
  simp only [DumpReply.lastRecordPivot] at h1 h2
  rw [h1] at h2
  exact absurd h2 (by decide)

/-- C7, amended: a DumpReply holds all seven components of the dump continuation token:
singleTableMode, tableId, startUnit, endUnit, lastUnitVisited and unitBoundaryFlag are
the six members of its context and are read back from it; lastRecordPivot is not a
member of the context, it is the last record of the reply (none for an empty reply). -/
theorem dump_token_components (oneTable : Bool)
    (tableId startUnitId endUnitId lastUnitId : Nat) (unitStart e : Bool)
    (kvs : List DumpKV) (kv : DumpKV) :
    (({ kvs := kvs ++ [kv], «end» := e,
        ctx := { oneTable := oneTable, tableId := tableId, startUnitId := startUnitId,
                 endUnitId := endUnitId, lastUnitId := lastUnitId,
                 unitStart := unitStart } } : DumpReply).ctx
      = DumpContext.mk oneTable tableId startUnitId endUnitId lastUnitId unitStart)
    ∧ (DumpContext.mk oneTable tableId startUnitId endUnitId lastUnitId unitStart).oneTable
        = oneTable
    ∧ (DumpContext.mk oneTable tableId startUnitId endUnitId lastUnitId unitStart).tableId
        = tableId
    ∧ (DumpContext.mk oneTable tableId startUnitId endUnitId lastUnitId
        unitStart).startUnitId = startUnitId
    ∧ (DumpContext.mk oneTable tableId startUnitId endUnitId lastUnitId
        unitStart).endUnitId = endUnitId
    ∧ (DumpContext.mk oneTable tableId startUnitId endUnitId lastUnitId
        unitStart).lastUnitId = lastUnitId
    ∧ (DumpContext.mk oneTable tableId startUnitId endUnitId lastUnitId
        unitStart).unitStart = unitStart
    ∧ ({ kvs := kvs ++ [kv], «end» := e,
         ctx := DumpContext.mk oneTable tableId startUnitId endUnitId lastUnitId
           unitStart } : DumpReply).lastRecordPivot = some kv
    ∧ ({ kvs := [], «end» := e,
         ctx := DumpContext.mk oneTable tableId startUnitId endUnitId lastUnitId
           unitStart } : DumpReply).lastRecordPivot = none := by
  refine ⟨rfl, rfl, rfl, rfl, rfl, rfl, rfl, ?_, rfl⟩
  simp [DumpReply.lastRecordPivot]

/-! ## Scan sessions -/

/-- The key order, spelled out. -/
theorem keyLess_iff (bs : Bool) (c1 : string) (s1 : Int) (c2 : string) (s2 : Int) :
    keyLess bs c1 s1 c2 s2 = true ↔
      ((bs = true ∧ (s1 < s2 ∨ (s1 = s2 ∧ c1 < c2))) ∨ (bs = false ∧ c1 < c2)) := by
  unfold keyLess
  cases bs <;> simp

/-- No key is less than itself. -/
theorem keyLess_irrefl (bs : Bool) (c : string) (s : Int) : keyLess bs c s c s = false := by
  rw [← Bool.not_eq_true, keyLess_iff]
  intro h
  rcases h with ⟨_, h | ⟨_, h⟩⟩ | ⟨_, h⟩
  · omega
  · exact lt_irrefl _ h
  · exact lt_irrefl _ h

/-- The key order is transitive. -/
theorem keyLess_trans (bs : Bool) (c1 : string) (s1 : Int) (c2 : string) (s2 : Int)
    (c3 : string) (s3 : Int) (h12 : keyLess bs c1 s1 c2 s2 = true)
    (h23 : keyLess bs c2 s2 c3 s3 = true) : keyLess bs c1 s1 c3 s3 = true := by
  rw [keyLess_iff] at *
  rcases h12 with ⟨hb, h12⟩ | ⟨hb, h12⟩
  · rcases h23 with ⟨_, h23⟩ | ⟨hb2, _⟩
    · left
      refine ⟨hb, ?_⟩
      rcases h12 with h12 | ⟨e12, l12⟩
      · rcases h23 with h23 | ⟨e23, _⟩
        · left; omega
        · left; omega
      · rcases h23 with h23 | ⟨e23, l23⟩
        · left; omega
        · right; exact ⟨by omega, lt_trans l12 l23⟩
    · rw [hb] at hb2; cases hb2
  · rcases h23 with ⟨hb2, _⟩ | ⟨_, h23⟩
    · rw [hb] at hb2; cases hb2
    · right; exact ⟨hb, lt_trans h12 h23⟩

/-- The key order is asymmetric. -/
theorem keyLess_asymm (bs : Bool) (c1 : string) (s1 : Int) (c2 : string) (s2 : Int)
    (h : keyLess bs c1 s1 c2 s2 = true) : keyLess bs c2 s2 c1 s1 = false := by
  rw [← Bool.not_eq_true]
  intro h2
  have h3 := keyLess_trans bs c1 s1 c2 s2 c1 s1 h h2
  rw [keyLess_irrefl] at h3
  cases h3

/-- Two keys of which neither is less than the other have the same colKey, and the
same score when ordering by score. -/
theorem keyLess_connected (bs : Bool) (c1 : string) (s1 : Int) (c2 : string) (s2 : Int)
    (h12 : keyLess bs c1 s1 c2 s2 = false) (h21 : keyLess bs c2 s2 c1 s1 = false) :
    c1 = c2 ∧ (bs = true → s1 = s2) := by
  rw [← Bool.not_eq_true, keyLess_iff] at h12 h21
  cases bs
  · simp only [Bool.false_eq_true, false_and, true_and, false_or, not_lt] at h12 h21
    exact ⟨le_antisymm h21 h12, fun h => by cases h⟩
  · simp only [true_and, Bool.true_eq_false, false_and, or_false, not_or, not_lt, not_and] at h12 h21
    have hs : s1 = s2 := by omega
    exact ⟨le_antisymm (h21.2 hs.symm) (h12.2 hs), fun _ => hs⟩

/-- A key below another one is below any third key or that third key is below the
other one. -/
theorem keyLess_cotrans (bs : Bool) (c1 : string) (s1 : Int) (c2 : string) (s2 : Int)
    (c3 : string) (s3 : Int) (h13 : keyLess bs c1 s1 c3 s3 = true) :
    keyLess bs c1 s1 c2 s2 = true ∨ keyLess bs c2 s2 c3 s3 = true := by
  rw [keyLess_iff] at h13
  rw [keyLess_iff, keyLess_iff]
  rcases h13 with ⟨hb, h13⟩ | ⟨hb, h13⟩
  · rcases lt_trichotomy s1 s2 with h | h | h
    · exact Or.inl (Or.inl ⟨hb, Or.inl h⟩)
    · rcases h13 with h13 | ⟨e13, l13⟩
      · exact Or.inr (Or.inl ⟨hb, Or.inl (by omega)⟩)
      · rcases lt_or_le c1 c2 with hc | hc
        · exact Or.inl (Or.inl ⟨hb, Or.inr ⟨h, hc⟩⟩)
        · exact Or.inr (Or.inl ⟨hb, Or.inr ⟨by omega, lt_of_le_of_lt hc l13⟩⟩)
    · rcases h13 with h13 | ⟨e13, _⟩
      · exact Or.inr (Or.inl ⟨hb, Or.inl (by omega)⟩)
      · exact Or.inr (Or.inl ⟨hb, Or.inl (by omega)⟩)
  · rcases lt_or_le c1 c2 with hc | hc
    · exact Or.inl (Or.inr ⟨hb, hc⟩)
    · exact Or.inr (Or.inr ⟨hb, lt_of_le_of_lt hc h13⟩)

/-- No column comes before itself. -/
theorem scanBefore_irrefl (asc bs : Bool) (c : string) (s : Int) :
    scanBefore asc bs c s c s = false := by
  cases asc <;> simp [scanBefore, keyLess_irrefl]

/-- The scan order is asymmetric, in both directions. -/
theorem scanBefore_asymm (asc bs : Bool) (c1 : string) (s1 : Int) (c2 : string) (s2 : Int)
    (h : scanBefore asc bs c1 s1 c2 s2 = true) : scanBefore asc bs c2 s2 c1 s1 = false := by
  cases asc
  · simp only [scanBefore, Bool.false_eq_true, if_false] at *
    exact keyLess_asymm _ _ _ _ _ h
  · simp only [scanBefore, if_true] at *
    exact keyLess_asymm _ _ _ _ _ h

/-- Two columns of which neither comes before the other have the same colKey. -/
theorem scanBefore_connected (asc bs : Bool) (c1 : string) (s1 : Int) (c2 : string)
    (s2 : Int) (h12 : scanBefore asc bs c1 s1 c2 s2 = false)
    (h21 : scanBefore asc bs c2 s2 c1 s1 = false) : c1 = c2 := by
  cases asc
  · simp only [scanBefore, Bool.false_eq_true, if_false] at *
    exact (keyLess_connected _ _ _ _ _ h21 h12).1
  · simp only [scanBefore, if_true] at *
    exact (keyLess_connected _ _ _ _ _ h12 h21).1

/-- The scan order is co-transitive, in both directions. -/
theorem scanBefore_cotrans (asc bs : Bool) (c1 : string) (s1 : Int) (c2 : string) (s2 : Int)
    (c3 : string) (s3 : Int) (h13 : scanBefore asc bs c1 s1 c3 s3 = true) :
    scanBefore asc bs c1 s1 c2 s2 = true ∨ scanBefore asc bs c2 s2 c3 s3 = true := by
  cases asc
  · simp only [scanBefore, Bool.false_eq_true, if_false] at *
    exact (keyLess_cotrans bs c3 s3 c2 s2 c1 s1 h13).symm
  · simp only [scanBefore, if_true] at *
    exact keyLess_cotrans bs c1 s1 c2 s2 c3 s3 h13

/-- Ordering a row keeps its columns. -/
theorem scanOrdered_perm (asc bs : Bool) (row : List ScanKV) :
    (scanOrdered asc bs row).Perm row :=
  List.perm_insertionSort _ row

/-- Ordering a row keeps the number of its columns. -/
theorem scanOrdered_length (asc bs : Bool) (row : List ScanKV) :
    (scanOrdered asc bs row).length = row.length :=
  (scanOrdered_perm asc bs row).length_eq

/-- The ordered columns of a row whose column keys are distinct are strictly
increasing in the scan order. -/
theorem scanOrdered_pairwise (asc bs : Bool) (row : List ScanKV)
    (hmap : (row.map ScanKV.colKey).Nodup) :
    (scanOrdered asc bs row).Pairwise
      (fun a b => scanBefore asc bs a.colKey a.score b.colKey b.score = true) := by
  haveI htot : IsTotal ScanKV
      (fun a b => scanBefore asc bs b.colKey b.score a.colKey a.score = false) :=
    ⟨fun a b => by
      cases h : scanBefore asc bs b.colKey b.score a.colKey a.score
      · exact Or.inl rfl
      · exact Or.inr (scanBefore_asymm _ _ _ _ _ _ h)⟩
  haveI htr : IsTrans ScanKV
      (fun a b => scanBefore asc bs b.colKey b.score a.colKey a.score = false) :=
    ⟨fun a b c hab hbc => by
      cases h : scanBefore asc bs c.colKey c.score a.colKey a.score
      · rfl
      · rcases scanBefore_cotrans asc bs c.colKey c.score b.colKey b.score a.colKey a.score h
          with h1 | h1
        · rw [hbc] at h1; cases h1
        · rw [hab] at h1; cases h1⟩
  have hs : (scanOrdered asc bs row).Pairwise
      (fun a b => scanBefore asc bs b.colKey b.score a.colKey a.score = false) :=
    List.sorted_insertionSort _ row
  have hnd : (scanOrdered asc bs row).Pairwise (fun a b => a.colKey ≠ b.colKey) := by
    have h1 : ((scanOrdered asc bs row).map ScanKV.colKey).Nodup :=
      ((scanOrdered_perm asc bs row).map _).nodup_iff.mpr hmap
    exact List.pairwise_map.mp h1
  refine (hs.and hnd).imp ?_
  intro a b hab
  cases h : scanBefore asc bs a.colKey a.score b.colKey b.score
  · exact absurd (scanBefore_connected asc bs _ _ _ _ h hab.1) hab.2
  · rfl

/-- In a strictly ordered list the columns after a pivot are those that follow it. -/
theorem filter_after_pivot (asc bs : Bool) (A B : List ScanKV) (p : ScanKV)
    (h : (A ++ p :: B).Pairwise
      (fun a b => scanBefore asc bs a.colKey a.score b.colKey b.score = true)) :
    (A ++ p :: B).filter
      (fun kv => scanBefore asc bs p.colKey p.score kv.colKey kv.score) = B := by
  rw [List.pairwise_append, List.pairwise_cons] at h
  obtain ⟨_, ⟨hpB, _⟩, hA⟩ := h
  rw [List.filter_append, List.filter_cons, scanBefore_irrefl]
  have h1 : A.filter (fun kv => scanBefore asc bs p.colKey p.score kv.colKey kv.score) = [] := by
    rw [List.filter_eq_nil_iff]
    intro a ha
    rw [scanBefore_asymm asc bs _ _ _ _ (hA a ha p (List.mem_cons_self _ _))]
    simp
  have h2 : B.filter (fun kv => scanBefore asc bs p.colKey p.score kv.colKey kv.score) = B := by
    rw [List.filter_eq_self]
    intro b hb
    exact hpB b hb
  rw [h1, h2]
  simp

/-- A valid scan from the start answers with the first page of the ordered row. -/
theorem doScan_start (maxScanNum : Nat) (st : Store) (zop : Bool) (tableId : Nat)
    (rowKey colKey : string) (score : Int) (asc orderByScore : Bool) (num : Int)
    (hkey : 1 ≤ rowKey.length ∧ rowKey.length ≤ 255)
    (hnum : 1 ≤ num ∧ num ≤ (maxScanNum : Int)) :
    doScan maxScanNum st zop tableId rowKey colKey score true asc orderByScore num
      = Except.ok (pageReply zop tableId rowKey asc orderByScore num
          (scanOrdered asc (zop && orderByScore) (st zop tableId rowKey).kvs)) := by
  have h1 : ¬ (rowKey.length < 1 ∨ 255 < rowKey.length) := by omega
  have h2 : ¬ (num < 1 ∨ (maxScanNum : Int) < num) := by omega
  simp only [doScan, h1, h2, if_false, serverScan, if_true, pageReply]

/-- A valid scan from a pivot answers with the first page of the columns after it. -/
theorem doScan_pivot (maxScanNum : Nat) (st : Store) (zop : Bool) (tableId : Nat)
    (rowKey colKey : string) (score : Int) (asc orderByScore : Bool) (num : Int)
    (hkey : 1 ≤ rowKey.length ∧ rowKey.length ≤ 255)
    (hnum : 1 ≤ num ∧ num ≤ (maxScanNum : Int)) :
    doScan maxScanNum st zop tableId rowKey colKey score false asc orderByScore num
      = Except.ok (pageReply zop tableId rowKey asc orderByScore num
          ((scanOrdered asc (zop && orderByScore) (st zop tableId rowKey).kvs).filter
            (fun kv =>
              scanBefore asc (zop && orderByScore) colKey score kv.colKey kv.score))) := by
  have h1 : ¬ (rowKey.length < 1 ∨ 255 < rowKey.length) := by omega
  have h2 : ¬ (num < 1 ∨ (maxScanNum : Int) < num) := by omega
  simp only [doScan, h1, h2, if_false, serverScan, Bool.false_eq_true, pageReply]

/-- A scan that produced a reply had a row key of 1..255 bytes and a page size between 1
and the server maximum. -/
theorem doScan_ok_valid (maxScanNum : Nat) (st : Store) (zop : Bool) (tableId : Nat)
    (rowKey colKey : string) (score : Int) (start asc orderByScore : Bool) (num : Int)
    (r : ScanReply)
    (h : doScan maxScanNum st zop tableId rowKey colKey score start asc orderByScore num
      = Except.ok r) :
    (1 ≤ rowKey.length ∧ rowKey.length ≤ 255) ∧ (1 ≤ num ∧ num ≤ (maxScanNum : Int)) := by
  unfold doScan at h
  split_ifs at h with h1 h2
  exact ⟨by omega, by omega⟩

/-- A scan whose page size is below 1 or above the server maximum is refused with
`EcInvScanNum`, whatever the row holds. -/
theorem doScan_invalid_num (maxScanNum : Nat) (st : Store) (zop : Bool) (tableId : Nat)
    (rowKey colKey : string) (score : Int) (start asc orderByScore : Bool) (num : Int)
    (hkey : 1 ≤ rowKey.length ∧ rowKey.length ≤ 255)
    (hnum : num < 1 ∨ (maxScanNum : Int) < num) :
    doScan maxScanNum st zop tableId rowKey colKey score start asc orderByScore num
      = Except.error ErrCode.EcInvScanNum.value := by
  have h1 : ¬ (rowKey.length < 1 ∨ 255 < rowKey.length) := by omega
  simp only [doScan, h1, hnum, if_false, if_true]

/-- The call `scan` produces a reply for a row key of 1..255 bytes and a page size
between 1 and the server maximum. -/
theorem scan_produces_reply (maxScanNum : Nat) (st : Store) (tableId : Nat)
    (rowKey : string) (asc : Bool) (k : Int)
    (hkey : 1 ≤ rowKey.length ∧ rowKey.length ≤ 255)
    (hnum : 1 ≤ k ∧ k ≤ (maxScanNum : Int)) :
    ∃ r0, scan maxScanNum st tableId rowKey asc k = Except.ok r0 :=
  ⟨_, doScan_start maxScanNum st false tableId rowKey [] 0 asc false k hkey hnum⟩

/-- The call `zScan` produces a reply for a row key of 1..255 bytes and a page size
between 1 and the server maximum. -/
theorem zScan_produces_reply (maxScanNum : Nat) (st : Store) (tableId : Nat)
    (rowKey : string) (asc orderByScore : Bool) (k : Int)
    (hkey : 1 ≤ rowKey.length ∧ rowKey.length ≤ 255)
    (hnum : 1 ≤ k ∧ k ≤ (maxScanNum : Int)) :
    ∃ r0, zScan maxScanNum st tableId rowKey asc orderByScore k = Except.ok r0 :=
  ⟨_, doScan_start maxScanNum st true tableId rowKey [] 0 asc orderByScore k hkey hnum⟩

/-- The call `scanMore` on the page of a suffix of the ordered row, when that page
is not the last one, answers with the page of the rest of that suffix. -/
theorem scanMore_pageReply (maxScanNum : Nat) (st : Store) (zop : Bool) (tableId : Nat)
    (rowKey : string) (asc orderByScore : Bool) (num : Int) (P S : List ScanKV)
    (hkey : 1 ≤ rowKey.length ∧ rowKey.length ≤ 255)
    (hnum : 1 ≤ num ∧ num ≤ (maxScanNum : Int))
    (hPS : scanOrdered asc (zop && orderByScore) (st zop tableId rowKey).kvs = P ++ S)
    (hmore : num.toNat < S.length) :
    scanMore maxScanNum st (pageReply zop tableId rowKey asc orderByScore num S)
      = Except.ok (pageReply zop tableId rowKey asc orderByScore num (S.drop num.toNat)) := by
  have hn : 1 ≤ num.toNat := by omega
  have hne : S.take num.toNat ≠ [] := by
    intro h
    have := congrArg List.length h
    rw [List.length_take] at this
    simp only [List.length_nil] at this
    omega
  obtain ⟨p, hp⟩ : ∃ p, (S.take num.toNat).getLast? = some p := by
    cases h : (S.take num.toNat).getLast? with
    | none => exact absurd (List.getLast?_eq_none_iff.mp h) hne
    | some p => exact ⟨p, rfl⟩
  obtain ⟨T, hT⟩ := List.getLast?_eq_some_iff.mp hp
  have hsorted := scanOrdered_pairwise asc (zop && orderByScore) _
    (st zop tableId rowKey).distinct
  have hL : scanOrdered asc (zop && orderByScore) (st zop tableId rowKey).kvs
      = (P ++ T) ++ p :: S.drop num.toNat := by
    rw [hPS]
    conv_lhs => rw [← List.take_append_drop num.toNat S, hT]
    simp
  have hfilter := filter_after_pivot asc (zop && orderByScore) (P ++ T) (S.drop num.toNat) p
    (hL ▸ hsorted)
  have hend : decide (S.length ≤ num.toNat) = false := by
    rw [decide_eq_false_iff_not]; omega
  unfold scanMore
  simp only [pageReply, hend, Bool.false_eq_true, if_false, hp]
  rw [doScan_pivot maxScanNum st zop tableId rowKey p.colKey p.score asc orderByScore num
    hkey hnum, hL, hfilter]
  rfl

/-- The records of a session are those of its first reply, then those of the rest. -/
theorem sessionRecords_cons (r : ScanReply) (rs : List ScanReply) :
    sessionRecords (r :: rs) = r.kvs ++ sessionRecords rs := by
  simp [sessionRecords]

/-- A session that starts with the page of a suffix of the ordered row yields that
suffix exactly, and its last reply has the end flag set, given fuel for each of its
columns. -/
theorem scanSession_pageReply (maxScanNum : Nat) (st : Store) (zop : Bool) (tableId : Nat)
    (rowKey : string) (asc orderByScore : Bool) (num : Int)
    (hkey : 1 ≤ rowKey.length ∧ rowKey.length ≤ 255)
    (hnum : 1 ≤ num ∧ num ≤ (maxScanNum : Int)) :
    ∀ (fuel : Nat) (P S : List ScanKV),
      scanOrdered asc (zop && orderByScore) (st zop tableId rowKey).kvs = P ++ S →
      S.length ≤ fuel →
      sessionRecords (scanSession maxScanNum st fuel
          (pageReply zop tableId rowKey asc orderByScore num S)) = S
        ∧ (scanSession maxScanNum st fuel
            (pageReply zop tableId rowKey asc orderByScore num S)).getLast?.map
              ScanReply.«end» = some true := by
  intro fuel
  induction fuel with
  | zero =>
    intro P S _ hlen
    have hS : S = [] := List.length_eq_zero.mp (Nat.le_zero.mp hlen)
    subst hS
    simp [scanSession, sessionRecords, pageReply]
  | succ f ih =>
    intro P S hPS hlen
    by_cases hle : S.length ≤ num.toNat
    · have hend : (pageReply zop tableId rowKey asc orderByScore num S).«end» = true := by
        simp [pageReply, hle]
      simp only [scanSession, hend, if_true]
      refine ⟨?_, ?_⟩
      · simp [sessionRecords, pageReply, List.take_of_length_le hle]
      · simp [hend]
    · have hmore : num.toNat < S.length := Nat.lt_of_not_le hle
      have hend : (pageReply zop tableId rowKey asc orderByScore num S).«end» = false := by
        simp [pageReply, hle]
      have hstep := scanMore_pageReply maxScanNum st zop tableId rowKey asc orderByScore
        num P S hkey hnum hPS hmore
      have hn : 1 ≤ num.toNat := by omega
      have hPS2 : scanOrdered asc (zop && orderByScore) (st zop tableId rowKey).kvs
          = (P ++ S.take num.toNat) ++ S.drop num.toNat := by
        rw [hPS, List.append_assoc, List.take_append_drop]
      have hlen2 : (S.drop num.toNat).length ≤ f := by
        rw [List.length_drop]; omega
      obtain ⟨ih1, ih2⟩ := ih (P ++ S.take num.toNat) (S.drop num.toNat) hPS2 hlen2
      simp only [scanSession, hend, Bool.false_eq_true, if_false, hstep]
      refine ⟨?_, ?_⟩
      · rw [sessionRecords_cons, ih1]
        simp [pageReply]
      · cases hrest : (scanSession maxScanNum st f
            (pageReply zop tableId rowKey asc orderByScore num (S.drop num.toNat))).getLast? with
        | none => rw [hrest] at ih2; simp at ih2
        | some x =>
          rw [hrest] at ih2
          rw [List.getLast?_cons, hrest]
          simpa using ih2

/-- A session that starts with the reply of a scan from the start, in either column
space and either order mode, yields in order the records of a single server scan whose
page bound is not below the size of the row, without duplicate, and ends with a reply
whose end flag is set. -/
theorem doScan_session (maxScanNum : Nat) (st : Store) (zop : Bool) (tableId : Nat)
    (rowKey : string) (asc orderByScore : Bool) (k : Int) (fuel n : Nat) (r0 : ScanReply)
    (hfuel : (st zop tableId rowKey).kvs.length ≤ fuel)
    (hn : (st zop tableId rowKey).kvs.length ≤ n)
    (h0 : doScan maxScanNum st zop tableId rowKey [] 0 true asc orderByScore k
      = Except.ok r0) :
    sessionRecords (scanSession maxScanNum st fuel r0)
        = (serverScan st
            { zop := zop, tableId := tableId, rowKey := rowKey, colKey := [],
              score := 0, start := true, asc := asc, orderByScore := orderByScore,
              num := (n : Int) }).1
      ∧ (sessionRecords (scanSession maxScanNum st fuel r0)).Nodup
      ∧ (scanSession maxScanNum st fuel r0).getLast?.map ScanReply.«end» = some true := by
  obtain ⟨hkey, hnum⟩ := doScan_ok_valid maxScanNum st zop tableId rowKey [] 0 true asc
    orderByScore k r0 h0
  rw [doScan_start maxScanNum st zop tableId rowKey [] 0 asc orderByScore k hkey hnum] at h0
  cases h0
  have hlen := scanOrdered_length asc (zop && orderByScore) (st zop tableId rowKey).kvs
  obtain ⟨h1, h2⟩ := scanSession_pageReply maxScanNum st zop tableId rowKey asc
    orderByScore k hkey hnum fuel []
    (scanOrdered asc (zop && orderByScore) (st zop tableId rowKey).kvs) rfl (by omega)
  refine ⟨?_, ?_, h2⟩
  · rw [h1]
    simp only [serverScan, if_true, Int.toNat_ofNat]
    rw [List.take_of_length_le (by omega)]
  · rw [h1]
    refine (scanOrdered_pairwise asc (zop && orderByScore) _
      (st zop tableId rowKey).distinct).imp ?_
    intro a b hab heq
    subst heq
    rw [scanBefore_irrefl] at hab
    cases hab

/-- C3: for every row and every page size k > 0, a scan(pageSize=k), in the default
column space (`scan`) or in the "Z" sorted score space in either order mode (`zScan`),
followed by repeated scanMore calls, each given the unmodified previous ScanReply, yields
in order the same record sequence as a single scan whose page size does not bound the row,
with no duplicate and no gap, and the last reply of the sequence has end = true; as many
scanMore calls as the row has columns are enough.  The first call does produce a reply
when the row key has 1..255 bytes and k is at most the server maximum. -/
theorem scan_session_yields_full_scan (maxScanNum : Nat) (st : Store) (tableId : Nat)
    (rowKey : string) (asc orderByScore : Bool) (k : Int) (fuel n : Nat)
    (hk : 0 < k)
    (hfuel : (st false tableId rowKey).kvs.length ≤ fuel
      ∧ (st true tableId rowKey).kvs.length ≤ fuel)
    (hn : (st false tableId rowKey).kvs.length ≤ n
      ∧ (st true tableId rowKey).kvs.length ≤ n) :
    (((1 ≤ rowKey.length ∧ rowKey.length ≤ 255) ∧ k ≤ (maxScanNum : Int)) →
      (∃ r0, scan maxScanNum st tableId rowKey asc k = Except.ok r0)
      ∧ (∃ r0, zScan maxScanNum st tableId rowKey asc orderByScore k = Except.ok r0))
    ∧ (∀ r0, scan maxScanNum st tableId rowKey asc k = Except.ok r0 →
      sessionRecords (scanSession maxScanNum st fuel r0)
          = (serverScan st
              { zop := false, tableId := tableId, rowKey := rowKey, colKey := [],
                score := 0, start := true, asc := asc, orderByScore := false,
                num := (n : Int) }).1
      ∧ (sessionRecords (scanSession maxScanNum st fuel r0)).Nodup
      ∧ (scanSession maxScanNum st fuel r0).getLast?.map ScanReply.«end» = some true)
    ∧ (∀ r0, zScan maxScanNum st tableId rowKey asc orderByScore k = Except.ok r0 →
      sessionRecords (scanSession maxScanNum st fuel r0)
          = (serverScan st
              { zop := true, tableId := tableId, rowKey := rowKey, colKey := [],
                score := 0, start := true, asc := asc, orderByScore := orderByScore,
                num := (n : Int) }).1
      ∧ (sessionRecords (scanSession maxScanNum st fuel r0)).Nodup
      ∧ (scanSession maxScanNum st fuel r0).getLast?.map ScanReply.«end» = some true) := by
  refine ⟨?_, ?_, ?_⟩
  · intro hv
    have hnum : 1 ≤ k ∧ k ≤ (maxScanNum : Int) := ⟨by omega, hv.2⟩
    exact ⟨scan_produces_reply maxScanNum st tableId rowKey asc k hv.1 hnum,
      zScan_produces_reply maxScanNum st tableId rowKey asc orderByScore k hv.1 hnum⟩
  · intro r0 h0
    exact doScan_session maxScanNum st false tableId rowKey asc false k fuel n r0
      hfuel.1 hn.1 h0
  · intro r0 h0
    exact doScan_session maxScanNum st true tableId rowKey asc orderByScore k fuel n
      r0 hfuel.2 hn.2 h0

/-- C3 at a concrete row, read in pages of two with a server maximum of ten: the three
columns of the default space in ascending colKey order, and the three columns of the "Z"
space in ascending (score, colKey) order, where the scores do not follow the column keys. -/
theorem scan_session_yields_full_scan_witness :
    ((0 : Int) < 2
      ∧ ((exStore false 1 [117, 49]).kvs.length ≤ 3
          ∧ (exStore true 1 [117, 49]).kvs.length ≤ 3))
    ∧ (∃ r0, scan 10 exStore 1 [117, 49] true 2 = Except.ok r0
        ∧ (sessionRecords (scanSession 10 exStore 3 r0)).map ScanKV.colKey
            = [[97], [98], [99]]
        ∧ sessionRecords (scanSession 10 exStore 3 r0)
            = (serverScan exStore
                { zop := false, tableId := 1, rowKey := [117, 49], colKey := [],
                  score := 0, start := true, asc := true, orderByScore := false,
                  num := ((3 : Nat) : Int) }).1
        ∧ (sessionRecords (scanSession 10 exStore 3 r0)).Nodup
        ∧ (scanSession 10 exStore 3 r0).getLast?.map ScanReply.«end» = some true)
    ∧ (∃ r0, zScan 10 exStore 1 [117, 49] true true 2 = Except.ok r0
        ∧ (sessionRecords (scanSession 10 exStore 3 r0)).map ScanKV.colKey
            = [[98], [100], [97]]
        ∧ sessionRecords (scanSession 10 exStore 3 r0)
            = (serverScan exStore
                { zop := true, tableId := 1, rowKey := [117, 49], colKey := [],
                  score := 0, start := true, asc := true, orderByScore := true,
                  num := ((3 : Nat) : Int) }).1
        ∧ (sessionRecords (scanSession 10 exStore 3 r0)).Nodup
        ∧ (scanSession 10 exStore 3 r0).getLast?.map ScanReply.«end» = some true) :=
  ⟨⟨by decide, by decide, by decide⟩,
    ⟨_, rfl, by decide,
      ((scan_session_yields_full_scan 10 exStore 1 [117, 49] true true 2 3 3 (by decide)
        ⟨by decide, by decide⟩ ⟨by decide, by decide⟩).2.1 _ rfl)⟩,
    ⟨_, rfl, by decide,
      ((scan_session_yields_full_scan 10 exStore 1 [117, 49] true true 2 3 3 (by decide)
        ⟨by decide, by decide⟩ ⟨by decide, by decide⟩).2.2 _ rfl)⟩⟩

end gotable
